import Mathlib

/-!
Shallow embedding of the tab/session state model of ThatSINEWAVE/Notepad
(src/notepad.py), stripped of widget construction and layout.  A tkinter
text widget is modelled by its observable character content: the string
returned by get("1.0", "end-1c"), i.e. the stored text without the
implicit final newline of the widget; get("1.0", tk.END) is that content
with one newline character appended.  The filesystem, the file dialogs and the message
boxes are oracles passed in as parameters; their answers (write success,
chosen path, prompt answer) are explicit arguments, and the messages the
code would show are returned as flags.
-/

namespace Notepad

/-- One open tab: the dict built in new_tab (notepad.py:972-980), with the
UI widget fields reduced to the displayed tab-label text. -/
structure Tab where
  title : String
  file_path : Option String
  modified : Bool
  content : List Char
  tab_title : String
  deriving DecidableEq

instance : Inhabited Tab := ⟨⟨"", none, false, [], ""⟩⟩

/-- update_tab_title (notepad.py:13-18): the label shows the title plus a
trailing asterisk marker when the tab is modified. -/
def update_tab_title (tab : Tab) : Tab :=
  { tab with tab_title := if tab.modified then tab.title ++ (" *") else tab.title }

/-- Lookup in the model of the Python dict self.last_saved_count: entries
are consed on write, the first binding wins, .get(k, 0) defaults to 0. -/
def dictGet (d : List (Nat × Nat)) (k : Nat) : Nat :=
  match d.find? (fun p => p.1 == k) with
  | some p => p.2
  | none => 0

/-- Assignment self.last_saved_count[k] = v. -/
def dictSet (d : List (Nat × Nat)) (k v : Nat) : List (Nat × Nat) :=
  (k, v) :: d

/-- The session state held on the EnhancedNotepad instance: self.tabs,
self.current_tab, self.last_saved_count, self.settings["recent_files"]. -/
structure Session where
  tabs : List Tab
  current_tab : Nat
  last_saved_count : List (Nat × Nat)
  recent_files : List String
  deriving DecidableEq

/-- The bounds guard 0 <= tab_idx < len(self.tabs) used by every
index-taking method. -/
def inBounds (i : Int) (n : Nat) : Bool :=
  decide (0 ≤ i ∧ i < (n : Int))

/-- Filesystem / dialog oracle: whether a path exists, what reading it
yields (none models a raised exception: decode or I/O error), and whether
writing to a path succeeds. -/
structure FS where
  pathExists : String → Bool
  readFile : String → Option (List Char)
  writeOk : String → Bool

/-- os.path.basename for forward-slash paths. -/
def basename (p : String) : String :=
  (p.splitOn ("/")).getLastD p

/-- Python l[-n:]. -/
def lastN (n : Nat) (l : List α) : List α :=
  l.drop (l.length - n)

/-- The recent-files update duplicated at notepad.py:1374-1380 and
1470-1476: append the path only when absent, then keep the last 10. -/
def update_recent (recent : List String) (path : String) : List String :=
  if path ∈ recent then recent else lastN 10 (recent ++ [path])

/-- new_tab (notepad.py:879-996) stripped of widget plumbing: append a tab
dict with modified=False, record last_saved_count[tab_idx] = 0, select the
new tab.  Python defaults are content="", title="Untitled", file_path=None. -/
def new_tab (s : Session) (content : List Char) (title : String)
    (file_path : Option String) : Session × Tab :=
  let tab_idx := s.tabs.length
  let tab : Tab :=
    { title := title, file_path := file_path, modified := false,
      content := content, tab_title := title }
  ({ s with
      tabs := s.tabs ++ [tab],
      last_saved_count := dictSet s.last_saved_count tab_idx 0,
      current_tab := tab_idx }, tab)

/-- The tab created by the default call self.new_tab() (notepad.py:1198). -/
def blankTab : Tab :=
  { title := "Untitled", file_path := none, modified := false,
    content := [], tab_title := "Untitled" }

/-- select_tab (notepad.py:1154-1165): set current_tab when in bounds,
otherwise do nothing; the rest is status-bar refresh. -/
def select_tab (s : Session) (i : Int) : Session :=
  if inBounds i s.tabs.length then { s with current_tab := i.toNat } else s

/-- Result of save_file / save_as_file: the new state, the returned bool,
the file write that was performed (path and content) if any, and whether
an error dialog was shown. -/
structure SaveOut where
  session : Session
  ok : Bool
  written : Option (String × List Char)
  errorShown : Bool
  deriving DecidableEq

/-- save_as_file (notepad.py:1423-1490): choice is the path picked in the
save dialog (none = user cancelled).  On a successful write the title
becomes the basename, file_path the new path, modified is cleared,
last_saved_count updated, and the path recorded in recent files. -/
def save_as_file (s : Session) (i : Int) (fs : FS) (choice : Option String) :
    SaveOut :=
  if inBounds i s.tabs.length then
    let idx := i.toNat
    let tab := s.tabs.getD idx default
    match choice with
    | some path =>
      if fs.writeOk path then
        let tab2 := update_tab_title
          { tab with title := basename path, file_path := some path,
                     modified := false }
        { session :=
            { s with
                tabs := s.tabs.set idx tab2,
                last_saved_count := dictSet s.last_saved_count idx tab.content.length,
                recent_files := update_recent s.recent_files path },
          ok := true, written := some (path, tab.content), errorShown := false }
      else { session := s, ok := false, written := none, errorShown := true }
    | none => { session := s, ok := false, written := none, errorShown := false }
  else { session := s, ok := false, written := none, errorShown := false }

/-- save_file (notepad.py:1388-1421): a pathless tab delegates to
save_as_file; otherwise write the buffer content to the stored path; on
success clear modified and update last_saved_count, on failure show an
error dialog and return False leaving the state untouched. -/
def save_file (s : Session) (i : Int) (fs : FS) (choice : Option String) :
    SaveOut :=
  if inBounds i s.tabs.length then
    let idx := i.toNat
    let tab := s.tabs.getD idx default
    match tab.file_path with
    | none => save_as_file s i fs choice
    | some path =>
      if fs.writeOk path then
        let tab2 := update_tab_title { tab with modified := false }
        { session :=
            { s with
                tabs := s.tabs.set idx tab2,
                last_saved_count := dictSet s.last_saved_count idx tab.content.length },
          ok := true, written := some (path, tab.content), errorShown := false }
      else { session := s, ok := false, written := none, errorShown := true }
  else { session := s, ok := false, written := none, errorShown := false }

/-- The three-way answer to the askyesnocancel save prompt. -/
inductive PromptAnswer
  | yes
  | no
  | cancel
  deriving DecidableEq

/-- Result of close_tab: the new state and whether the save prompt was
shown. -/
structure CloseOut where
  session : Session
  prompted : Bool
  deriving DecidableEq

/-- The removal-and-reselection tail of close_tab (notepad.py:1184-1203):
pop the tab, create a fresh blank tab when none remain, otherwise select
the tab now at the closed index or the new last tab. -/
def close_remove (s : Session) (idx : Nat) : Session :=
  let tabs2 := s.tabs.eraseIdx idx
  let s1 := { s with tabs := tabs2 }
  if tabs2.isEmpty then (new_tab s1 [] ("Untitled") none).1
  else if idx < tabs2.length then select_tab s1 (idx : Int)
  else select_tab s1 ((tabs2.length - 1 : Nat) : Int)

/-- close_tab (notepad.py:1167-1203): when the tab is modified the user is
prompted; Cancel aborts, Yes saves first and aborts when the save fails or
is cancelled, No (and the unmodified case) proceeds to removal. -/
def close_tab (s : Session) (i : Int) (answer : PromptAnswer) (fs : FS)
    (choice : Option String) : CloseOut :=
  if inBounds i s.tabs.length then
    let idx := i.toNat
    let tab := s.tabs.getD idx default
    if tab.modified then
      match answer with
      | PromptAnswer.cancel => { session := s, prompted := true }
      | PromptAnswer.yes =>
        let out := save_file s i fs choice
        if out.ok then { session := close_remove out.session idx, prompted := true }
        else { session := out.session, prompted := true }
      | PromptAnswer.no => { session := close_remove s idx, prompted := true }
    else { session := close_remove s idx, prompted := false }
  else { session := s, prompted := false }

/-- on_text_modified (notepad.py:1226-1248): compare the current content
length against last_saved_count.get(tab_idx, 0); on a difference mark the
tab modified (once) and redraw its title; equal lengths change nothing. -/
def on_text_modified (s : Session) (i : Int) : Session :=
  if inBounds i s.tabs.length then
    let idx := i.toNat
    let tab := s.tabs.getD idx default
    let current_count := tab.content.length
    let last_count := dictGet s.last_saved_count idx
    if current_count ≠ last_count then
      if tab.modified then s
      else { s with tabs := s.tabs.set idx (update_tab_title { tab with modified := true }) }
    else s
  else s

/-- Result of open_specific_file: the new state and whether an error
dialog was shown. -/
structure OpenOut where
  session : Session
  errorShown : Bool
  deriving DecidableEq

/-- open_specific_file (notepad.py:1341-1386): missing path or failed read
shows an error; a tab whose stored file_path equals the argument string is
re-selected; otherwise a new tab is created with the file content, its
modified flag reset, last_saved_count set to the content length, and the
path recorded in recent files. -/
def open_specific_file (s : Session) (file_path : String) (fs : FS) : OpenOut :=
  if fs.pathExists file_path = false then { session := s, errorShown := true }
  else
    match fs.readFile file_path with
    | none => { session := s, errorShown := true }
    | some content =>
      match s.tabs.findIdx? (fun tab => tab.file_path == some file_path) with
      | some j => { session := select_tab s (j : Int), errorShown := false }
      | none =>
        let filename := basename file_path
        let r := new_tab s content filename (some file_path)
        let s1 := r.1
        let tab_idx := s1.tabs.length - 1
        let tab2 := update_tab_title { r.2 with modified := false }
        let s2 :=
          { s1 with
              tabs := s1.tabs.set tab_idx tab2,
              last_saved_count := dictSet s1.last_saved_count tab_idx content.length }
        { session := { s2 with recent_files := update_recent s2.recent_files file_path },
          errorShown := false }

/-- Lower-casing used to model the nocase=True option of the tkinter text
search. -/
def toLowerList (l : List Char) : List Char :=
  l.map Char.toLower

/-- Whether the search text matches the content case-insensitively at
position i. -/
def matchAtCI (content pat : List Char) (i : Nat) : Bool :=
  (toLowerList pat).isPrefixOf ((toLowerList content).drop i)

/-- Linear scan for the first case-insensitive match at a position in
[lo, lo + fuel). -/
def scanMatch (content pat : List Char) : Nat → Nat → Option Nat
  | _, 0 => none
  | lo, n + 1 =>
    if matchAtCI content pat lo then some lo
    else scanMatch content pat (lo + 1) n

/-- text_area.search(pat, lo, stopindex=hi, nocase=True): first match
starting at a position in [lo, hi). -/
def tkSearch (content pat : List Char) (lo hi : Nat) : Option Nat :=
  scanMatch content pat lo (hi - lo)

/-- find_next (notepad.py:1616-1660) on the active content with the cursor
at start: empty search returns early; otherwise search from the cursor to
the end, wrap to a search from the beginning up to the cursor, and return
the matched range [i, i + len(pat)) when found. -/
def find_next (content pat : List Char) (start : Nat) : Option (Nat × Nat) :=
  if pat.isEmpty then none
  else
    match tkSearch content pat start content.length with
    | some i => some (i, i + pat.length)
    | none =>
      match tkSearch content pat 0 start with
      | some i => some (i, i + pat.length)
      | none => none

/-- Recursion core of countOccs; the fuel argument (an upper bound on the
length of the scanned list) makes the recursion structural. -/
def countOccsFuel : Nat → List Char → List Char → Nat
  | 0, _, _ => 0
  | _ + 1, _, [] => 0
  | _ + 1, [], _ :: _ => 0
  | fuel + 1, c :: s, p :: ps =>
    if (p :: ps).isPrefixOf (c :: s) then countOccsFuel fuel (s.drop ps.length) (p :: ps) + 1
    else countOccsFuel fuel s (p :: ps)

/-- Python str.count for a nonempty pattern: non-overlapping occurrences
scanned left to right. -/
def countOccs (s pat : List Char) : Nat :=
  countOccsFuel s.length s pat

/-- Recursion core of replaceOccs, fueled like countOccsFuel. -/
def replaceOccsFuel : Nat → List Char → List Char → List Char → List Char
  | 0, s, _, _ => s
  | _ + 1, s, [], _ => s
  | _ + 1, [], _ :: _, _ => []
  | fuel + 1, c :: s, p :: ps, r =>
    if (p :: ps).isPrefixOf (c :: s) then r ++ replaceOccsFuel fuel (s.drop ps.length) (p :: ps) r
    else c :: replaceOccsFuel fuel s (p :: ps) r

/-- Python str.replace: replace every non-overlapping occurrence, scanned
left to right. -/
def replaceOccs (s pat rep : List Char) : List Char :=
  replaceOccsFuel s.length s pat rep

/-- What replace_all reports: nothing (guard hit or confirmation refused),
the cannot-find message, or the replaced-count message. -/
inductive ReplaceMsg
  | noAction
  | notFound
  | replaced (n : Nat)
  deriving DecidableEq

/-- replace_all (notepad.py:1699-1741): the content is fetched with
get("1.0", tk.END), which appends the implicit trailing newline of the widget;
occurrences are counted in that string, and after confirmation the
delete-all/insert pair leaves the substituted string (trailing newline
included) as the new content. -/
def replace_all (s : Session) (search rep : List Char) (confirm : Bool) :
    Session × ReplaceMsg :=
  if s.current_tab < s.tabs.length then
    if search.isEmpty then (s, ReplaceMsg.noAction)
    else
      let tab := s.tabs.getD s.current_tab default
      let content := tab.content ++ [Char.ofNat 10]
      let count := countOccs content search
      if count = 0 then (s, ReplaceMsg.notFound)
      else if confirm then
        let new_content := replaceOccs content search rep
        ({ s with tabs := s.tabs.set s.current_tab { tab with content := new_content } },
         ReplaceMsg.replaced count)
      else (s, ReplaceMsg.noAction)
  else (s, ReplaceMsg.noAction)

/-! Concrete sessions and oracles used to evaluate the model. -/

/-- The empty session (before the first tab is created). -/
def s0 : Session :=
  { tabs := [], current_tab := 0, last_saved_count := [], recent_files := [] }

/-- Twelve distinct paths, all existing and readable. -/
def paths12 : List String :=
  ["f01", "f02", "f03", "f04", "f05", "f06", "f07", "f08", "f09", "f10", "f11", "f12"]

/-- A filesystem where exactly the twelve paths exist and read as empty. -/
def fs12 : FS :=
  { pathExists := fun p => paths12.contains p,
    readFile := fun p => if paths12.contains p then some [] else none,
    writeOk := fun _ => true }

/-- The session after opening the twelve files in order. -/
def s12 : Session :=
  paths12.foldl (fun s p => (open_specific_file s p fs12).session) s0

/-- A filesystem where every path exists, reads as empty and writes
succeed. -/
def fsAll : FS :=
  { pathExists := fun _ => true, readFile := fun _ => some [], writeOk := fun _ => true }

/-- A tab whose stored path spelling is "./a.txt". -/
def tabDotSlash : Tab :=
  { title := "a.txt", file_path := some ("./a.txt"), modified := false,
    content := [], tab_title := "a.txt" }

/-- A session holding only tabDotSlash. -/
def sDotSlash : Session :=
  { tabs := [tabDotSlash], current_tab := 0, last_saved_count := [(0, 0)],
    recent_files := [] }

/-- A resolver under which "./a.txt" and "a.txt" denote the same absolute
path, as os.path resolution would make them. -/
def resolveSame : String → String := fun _ => "/home/user/a.txt"

/-- A filesystem where nothing exists and nothing can be read or written. -/
def fsNone : FS :=
  { pathExists := fun _ => false, readFile := fun _ => none, writeOk := fun _ => false }

/-- A dirty tab whose whole content is a single space (whitespace-only). -/
def tabWhitespace : Tab :=
  { title := "Untitled", file_path := none, modified := true,
    content := [' '], tab_title := "Untitled *" }

/-- A session holding only the dirty whitespace tab. -/
def sWhitespace : Session :=
  { tabs := [tabWhitespace], current_tab := 0, last_saved_count := [(0, 0)],
    recent_files := [] }

/-- A session whose single tab holds the content "banana". -/
def sBanana : Session :=
  { tabs := [{ title := "Untitled", file_path := none, modified := false,
               content := ("banana").data, tab_title := "Untitled" }],
    current_tab := 0, last_saved_count := [(0, 0)], recent_files := [] }

/-- A dirty tab backed by the file "a.txt" with content "hi". -/
def tabSaved : Tab :=
  { title := "a.txt", file_path := some ("a.txt"), modified := true,
    content := ("hi").data, tab_title := "a.txt *" }

/-- A session holding only tabSaved. -/
def sSaved : Session :=
  { tabs := [tabSaved], current_tab := 0, last_saved_count := [(0, 0)],
    recent_files := [] }

/-! Auxiliary lemmas about the embedding. -/

lemma inBounds_toNat {i : Int} {n : Nat} (h : inBounds i n = true) : i.toNat < n := by
  have h2 := of_decide_eq_true h
  omega

lemma inBounds_natCast {idx n : Nat} (h : idx < n) : inBounds (idx : Int) n = true := by
  apply decide_eq_true
  exact ⟨by omega, by exact_mod_cast h⟩

lemma getD_set_self {α : Type} (l : List α) (n : Nat) (a d : α) (h : n < l.length) :
    (l.set n a).getD n d = a := by
  induction l generalizing n with
  | nil => simp at h
  | cons b l ih =>
    cases n with
    | zero => rfl
    | succ n =>
      have := ih n (by simpa using h)
      simpa [List.set] using this

lemma eraseIdx_getD_self {α : Type} (l : List α) (n : Nat) (d : α) :
    (l.eraseIdx n).getD n d = l.getD (n + 1) d := by
  induction l generalizing n with
  | nil => simp [List.eraseIdx]
  | cons a l ih =>
    cases n with
    | zero => rfl
    | succ n =>
      have := ih n
      simpa [List.eraseIdx] using this

lemma select_tab_tabs (s : Session) (i : Int) : (select_tab s i).tabs = s.tabs := by
  unfold select_tab
  split <;> rfl

lemma select_tab_recent (s : Session) (i : Int) :
    (select_tab s i).recent_files = s.recent_files := by
  unfold select_tab
  split <;> rfl

lemma dictGet_dictSet (d : List (Nat × Nat)) (k v : Nat) :
    dictGet (dictSet d k v) k = v := by
  simp [dictGet, dictSet, List.find?]

lemma save_as_file_tabs_length (s : Session) (i : Int) (fs : FS) (choice : Option String) :
    (save_as_file s i fs choice).session.tabs.length = s.tabs.length := by
  by_cases hb : inBounds i s.tabs.length = true
  · rcases choice with _ | path
    · simp [save_as_file, hb]
    · by_cases hw : fs.writeOk path = true
      · simp [save_as_file, hb, hw]
      · simp [save_as_file, hb, hw]
  · simp [save_as_file, hb]

lemma save_file_tabs_length (s : Session) (i : Int) (fs : FS) (choice : Option String) :
    (save_file s i fs choice).session.tabs.length = s.tabs.length := by
  by_cases hb : inBounds i s.tabs.length = true
  · rcases hfp : (s.tabs.getD i.toNat default).file_path with _ | path
    all_goals simp only [List.getD_eq_getElem?_getD] at hfp
    · have h2 := save_as_file_tabs_length s i fs choice
      simp [save_file, hb, hfp, h2]
    · by_cases hw : fs.writeOk path = true
      · simp [save_file, hb, hfp, hw]
      · simp [save_file, hb, hfp, hw]
  · simp [save_file, hb]

lemma new_tab_tabs_ne_nil (s : Session) (content : List Char) (title : String)
    (fp : Option String) : (new_tab s content title fp).1.tabs ≠ [] := by
  simp [new_tab]

lemma close_remove_tabs_ne_nil (s : Session) (idx : Nat) :
    (close_remove s idx).tabs ≠ [] := by
  by_cases he : (s.tabs.eraseIdx idx).isEmpty = true
  · simp [close_remove, he, new_tab]
  · have hne : s.tabs.eraseIdx idx ≠ [] := by simpa [List.isEmpty_iff] using he
    by_cases hlt : idx < (s.tabs.eraseIdx idx).length
    · simp [close_remove, he, hlt, select_tab_tabs, hne]
    · simp [close_remove, he, hlt, select_tab_tabs, hne]

lemma close_tab_tabs_ne_nil (s : Session) (i : Int) (a : PromptAnswer) (fs : FS)
    (choice : Option String) (hne : s.tabs ≠ []) :
    (close_tab s i a fs choice).session.tabs ≠ [] := by
  by_cases hb : inBounds i s.tabs.length = true
  · by_cases hm : (s.tabs.getD i.toNat default).modified = true
    all_goals simp only [List.getD_eq_getElem?_getD] at hm
    · cases a with
      | cancel => simpa [close_tab, hb, hm] using hne
      | yes =>
        by_cases hok : (save_file s i fs choice).ok = true
        · simpa [close_tab, hb, hm, hok] using close_remove_tabs_ne_nil _ _
        · have hl := save_file_tabs_length s i fs choice
          have h2 : (save_file s i fs choice).session.tabs ≠ [] := by
            intro hnil
            rw [hnil] at hl
            exact hne (List.eq_nil_of_length_eq_zero hl.symm)
          simpa [close_tab, hb, hm, hok] using h2
      | no => simpa [close_tab, hb, hm] using close_remove_tabs_ne_nil _ _
    · simpa [close_tab, hb, hm] using close_remove_tabs_ne_nil _ _
  · simpa [close_tab, hb] using hne

lemma findIdx?_some_bounds {α : Type} (p : α → Bool) :
    ∀ (l : List α) (start j : Nat), l.findIdx? p start = some j →
      start ≤ j ∧ j < start + l.length := by
  intro l
  induction l with
  | nil => intro start j h; simp [List.findIdx?] at h
  | cons a l ih =>
    intro start j h
    rw [List.findIdx?_cons] at h
    by_cases hp : p a = true
    · rw [if_pos hp] at h
      cases h
      constructor
      · omega
      · simp
    · rw [if_neg hp] at h
      have := ih (start + 1) j h
      constructor
      · omega
      · simp only [List.length_cons]
        omega

lemma mem_update_recent (recent : List String) (p : String) :
    p ∈ update_recent recent p := by
  unfold update_recent
  split
  · assumption
  · unfold lastN
    have hlen : (recent ++ [p]).length - 10 ≤ recent.length := by
      simp only [List.length_append, List.length_singleton]
      omega
    rw [List.drop_append_of_le_length hlen]
    simp

lemma update_recent_length (recent : List String) (p : String)
    (h : recent.length ≤ 10) : (update_recent recent p).length ≤ 10 := by
  unfold update_recent
  split
  · exact h
  · simp only [lastN, List.length_drop, List.length_append, List.length_singleton]
    omega

lemma update_recent_nodup (recent : List String) (p : String)
    (h : recent.Nodup) : (update_recent recent p).Nodup := by
  unfold update_recent
  split
  · exact h
  · rename_i hmem
    apply List.Sublist.nodup (List.drop_sublist _ _)
    rw [← List.concat_eq_append]
    exact List.Nodup.concat hmem h

lemma matchAtCI_eq_false_of_le (c p : List Char) (hp : p ≠ []) (i : Nat)
    (h : c.length ≤ i) : matchAtCI c p i = false := by
  unfold matchAtCI
  have hd : (toLowerList c).drop i = [] := by
    apply List.drop_eq_nil_of_le
    simpa [toLowerList] using h
  rw [hd]
  cases p with
  | nil => exact absurd rfl hp
  | cons a as => simp [toLowerList, List.isPrefixOf]

lemma lt_length_of_matchAtCI (c p : List Char) (hp : p ≠ []) (i : Nat)
    (h : matchAtCI c p i = true) : i < c.length := by
  by_contra hc
  rw [matchAtCI_eq_false_of_le c p hp i (by omega)] at h
  cases h

lemma scanMatch_some_iff (c p : List Char) (n lo i : Nat) :
    scanMatch c p lo n = some i ↔
      (lo ≤ i ∧ i < lo + n ∧ matchAtCI c p i = true ∧
       ∀ k, lo ≤ k → k < i → matchAtCI c p k = false) := by
  induction n generalizing lo with
  | zero =>
    simp only [scanMatch]
    constructor
    · intro h
      cases h
    · rintro ⟨h1, h2, -⟩
      exact absurd h2 (by omega)
  | succ n ih =>
    simp only [scanMatch]
    by_cases h : matchAtCI c p lo = true
    · rw [if_pos h]
      constructor
      · intro he
        cases he
        refine ⟨le_refl _, by omega, h, ?_⟩
        intro k hk1 hk2
        exact absurd hk2 (by omega)
      · rintro ⟨h1, h2, h3, h4⟩
        rcases Nat.lt_or_ge lo i with hlt | hge
        · have hbad := h4 lo (le_refl _) hlt
          rw [h] at hbad
          cases hbad
        · have heq : i = lo := le_antisymm hge h1
          rw [heq]
    · rw [if_neg h]
      have hfalse : matchAtCI c p lo = false := by
        cases hb : matchAtCI c p lo
        · rfl
        · exact absurd hb h
      rw [ih (lo + 1)]
      constructor
      · rintro ⟨h1, h2, h3, h4⟩
        refine ⟨by omega, by omega, h3, ?_⟩
        intro k hk1 hk2
        rcases Nat.eq_or_lt_of_le hk1 with he | hl
        · rw [← he]
          exact hfalse
        · exact h4 k hl hk2
      · rintro ⟨h1, h2, h3, h4⟩
        have hne : lo ≠ i := by
          intro he
          rw [← he] at h3
          rw [hfalse] at h3
          cases h3
        refine ⟨by omega, by omega, h3, ?_⟩
        intro k hk1 hk2
        exact h4 k (by omega) hk2

lemma scanMatch_none_iff (c p : List Char) (n lo : Nat) :
    scanMatch c p lo n = none ↔
      ∀ k, lo ≤ k → k < lo + n → matchAtCI c p k = false := by
  induction n generalizing lo with
  | zero =>
    constructor
    · intro _h k hk1 hk2
      exact absurd hk2 (by omega)
    · intro _h
      rfl
  | succ n ih =>
    simp only [scanMatch]
    by_cases h : matchAtCI c p lo = true
    · rw [if_pos h]
      constructor
      · intro he
        cases he
      · intro hall
        have hbad := hall lo (le_refl _) (by omega)
        rw [h] at hbad
        cases hbad
    · rw [if_neg h]
      have hfalse : matchAtCI c p lo = false := by
        cases hb : matchAtCI c p lo
        · rfl
        · exact absurd hb h
      rw [ih (lo + 1)]
      constructor
      · intro hall k hk1 hk2
        rcases Nat.eq_or_lt_of_le hk1 with he | hl
        · rw [← he]
          exact hfalse
        · exact hall k hl (by omega)
      · intro hall k hk1 hk2
        exact hall k (by omega) (by omega)

/-! Claim theorems. -/

/-- C10: every index-taking session operation is total over arbitrary
integer indices: for an index outside [0, number of open tabs), save_file
returns false, performs no write and leaves the session untouched,
select_tab is the identity on the session, and close_tab shows no prompt
and leaves the session (hence the tab sequence) unchanged. -/
theorem out_of_bounds_ops_total (s : Session) (i : Int) (fs : FS)
    (choice : Option String) (a : PromptAnswer)
    (h : inBounds i s.tabs.length = false) :
    save_file s i fs choice = ⟨s, false, none, false⟩ ∧
    select_tab s i = s ∧
    close_tab s i a fs choice = ⟨s, false⟩ := by
  have hns : ¬ inBounds i s.tabs.length = true := by
    rw [h]
    simp
  refine ⟨?_, ?_, ?_⟩
  · simp [save_file, hns]
  · simp [select_tab, hns]
  · simp [close_tab, hns]

/-- C10 witness: on the one-tab session sBanana, index -1 is out of bounds
and all three operations behave as stated. -/
theorem out_of_bounds_ops_total_witness :
    save_file sBanana (-1) fsNone none = ⟨sBanana, false, none, false⟩ ∧
    select_tab sBanana (-1) = sBanana ∧
    close_tab sBanana (-1) PromptAnswer.no fsNone none = ⟨sBanana, false⟩ :=
  out_of_bounds_ops_total sBanana (-1) fsNone none PromptAnswer.no (by decide)

/-- C2 counterexample: new_tab with content "ab" records last_saved_count
0 for the new tab, not the content length 2, refuting the claim that
createDocument sets lastSavedLength to len(content). -/
theorem new_tab_lastSavedLength_cex :
    ¬ dictGet (new_tab s0 (("ab").data) ("Untitled") none).1.last_saved_count
        ((new_tab s0 (("ab").data) ("Untitled") none).1.tabs.length - 1) =
      (("ab").data).length := by decide

/-- C2 (amended): new_tab appends a tab holding exactly the given content
with modified=false and the given title, makes its index the current tab,
and sets its last_saved_count entry to 0 regardless of the content; the
default invocation uses title "Untitled". -/
theorem new_tab_spec (s : Session) (content : List Char) (title : String)
    (fp : Option String) :
    (new_tab s content title fp).1.tabs =
      s.tabs ++ [⟨title, fp, false, content, title⟩] ∧
    (new_tab s content title fp).2 = ⟨title, fp, false, content, title⟩ ∧
    (new_tab s content title fp).1.current_tab = s.tabs.length ∧
    dictGet (new_tab s content title fp).1.last_saved_count s.tabs.length = 0 ∧
    (new_tab s [] ("Untitled") none).2 = blankTab := by
  refine ⟨rfl, rfl, rfl, ?_, rfl⟩
  exact dictGet_dictSet _ _ _

/-- C8: evaluation of replace_all at the failing input: on content
"banana" replacing "a" by "b" reports 3 occurrences, but the resulting
content is "bbnbnb" followed by a newline — not "bbnbnb" — because the
code fetches the content with tk.END, which includes the implicit
trailing newline of the text widget. -/
theorem replace_all_banana_eval :
    (replace_all sBanana (("a").data) (("b").data) true).2 = ReplaceMsg.replaced 3 ∧
    ((replace_all sBanana (("a").data) (("b").data) true).1.tabs.getD 0 default).content
      = ("bbnbnb\n").data ∧
    ¬ ("bbnbnb\n").data = ("bbnbnb").data := by decide

/-- C5 counterexample: the tab of sWhitespace is dirty and its whole
content is whitespace, yet close_tab still shows the three-way prompt,
refuting the claimed empty/whitespace-only exemption. -/
theorem close_prompt_whitespace_cex :
    (∀ c ∈ tabWhitespace.content, c = ' ') ∧
    tabWhitespace.modified = true ∧
    (close_tab sWhitespace 0 PromptAnswer.cancel fsNone none).prompted = true := by
  decide

/-- C5 (amended): closing a dirty tab always triggers the three-way prompt
regardless of its content, a clean tab is closed without a prompt, and
answering Cancel aborts the close leaving the whole session unchanged. -/
theorem close_tab_prompt_spec (s : Session) (i : Int) (fs : FS)
    (choice : Option String) (h : inBounds i s.tabs.length = true) :
    ((s.tabs.getD i.toNat default).modified = true →
      (∀ a, (close_tab s i a fs choice).prompted = true) ∧
      close_tab s i PromptAnswer.cancel fs choice = ⟨s, true⟩) ∧
    ((s.tabs.getD i.toNat default).modified = false →
      ∀ a, (close_tab s i a fs choice).prompted = false) := by
  constructor
  · intro hm
    simp only [List.getD_eq_getElem?_getD] at hm
    constructor
    · intro a
      cases a with
      | cancel => simp [close_tab, h, hm]
      | yes =>
        by_cases hok : (save_file s i fs choice).ok = true
        · simp [close_tab, h, hm, hok]
        · simp [close_tab, h, hm, hok]
      | no => simp [close_tab, h, hm]
    · simp [close_tab, h, hm]
  · intro hm
    simp only [List.getD_eq_getElem?_getD] at hm
    intro a
    simp [close_tab, h, hm]

/-- C5 witness: the dirty whitespace-only tab is prompted on close. -/
theorem close_tab_prompt_spec_witness :
    (∀ a, (close_tab sWhitespace 0 a fsNone none).prompted = true) ∧
    close_tab sWhitespace 0 PromptAnswer.cancel fsNone none = ⟨sWhitespace, true⟩ :=
  (close_tab_prompt_spec sWhitespace 0 fsNone none (by decide)).1 (by decide)

/-- C1: starting from a session with at least one tab, close_tab always
leaves at least one tab; and the removal tail of close_tab creates exactly
one fresh blank tab when the removal empties the sequence, while
otherwise it keeps the erased sequence and selects the tab that shifted
into the closed index when one exists, else the tab at the new last
index. -/
theorem close_tab_invariant (s : Session) (i : Int) (a : PromptAnswer)
    (fs : FS) (choice : Option String) (hne : s.tabs ≠ []) :
    (close_tab s i a fs choice).session.tabs ≠ [] ∧
    (∀ (t : Session) (idx : Nat), idx < t.tabs.length →
      ((t.tabs.eraseIdx idx).isEmpty = true →
        (close_remove t idx).tabs = [blankTab] ∧
        (close_remove t idx).current_tab = 0) ∧
      (idx < (t.tabs.eraseIdx idx).length →
        (close_remove t idx).tabs = t.tabs.eraseIdx idx ∧
        (close_remove t idx).current_tab = idx ∧
        (close_remove t idx).tabs.getD idx default = t.tabs.getD (idx + 1) default) ∧
      ((t.tabs.eraseIdx idx).isEmpty = false →
        ¬ idx < (t.tabs.eraseIdx idx).length →
        (close_remove t idx).tabs = t.tabs.eraseIdx idx ∧
        (close_remove t idx).current_tab = (t.tabs.eraseIdx idx).length - 1)) := by
  constructor
  · exact close_tab_tabs_ne_nil s i a fs choice hne
  · intro t idx hidx
    refine ⟨?_, ?_, ?_⟩
    · intro he
      have hnil : t.tabs.eraseIdx idx = [] := by
        simpa [List.isEmpty_iff] using he
      constructor
      · simp [close_remove, he, hnil, new_tab, blankTab]
      · simp [close_remove, he, hnil, new_tab]
    · intro hlt2
      have hne2 : (t.tabs.eraseIdx idx).isEmpty = false := by
        have : t.tabs.eraseIdx idx ≠ [] := by
          intro hnil
          rw [hnil] at hlt2
          simp at hlt2
        simpa [List.isEmpty_iff]
      have hsel := inBounds_natCast hlt2
      refine ⟨?_, ?_, ?_⟩
      · simp [close_remove, hne2, hlt2, select_tab_tabs]
      · simp [close_remove, hne2, hlt2, select_tab, hsel]
      · simp only [close_remove, hne2, hlt2, if_true, if_false, Bool.false_eq_true,
          select_tab_tabs]
        exact eraseIdx_getD_self t.tabs idx default
    · intro he hnlt
      have hpos : 0 < (t.tabs.eraseIdx idx).length := by
        have : t.tabs.eraseIdx idx ≠ [] := by
          simpa [List.isEmpty_iff] using he
        exact List.length_pos.mpr this
      have hsel := @inBounds_natCast ((t.tabs.eraseIdx idx).length - 1)
        ((t.tabs.eraseIdx idx).length) (by omega)
      constructor
      · simp [close_remove, he, hnlt, select_tab_tabs]
      · simp [close_remove, he, hnlt, select_tab, hsel]

/-- C1 witness: closing the only (clean) tab of sBanana leaves a session
with at least one tab. -/
theorem close_tab_invariant_witness :
    (close_tab sBanana 0 PromptAnswer.no fsNone none).session.tabs ≠ [] :=
  (close_tab_invariant sBanana 0 PromptAnswer.no fsNone none (by decide)).1

/-- C4: for an in-bounds index, save_file on a pathless tab delegates to
save_as_file; on a tab with a path it writes the full buffer content to
that path, and on success clears the modified flag, records the content
length in last_saved_count and shows no error, while on a failed write it
shows an error dialog, returns false and leaves the session (title,
file_path, modified flag and last_saved_count included) unchanged. -/
theorem save_file_spec (s : Session) (i : Int) (fs : FS) (choice : Option String)
    (h : inBounds i s.tabs.length = true) :
    ((s.tabs.getD i.toNat default).file_path = none →
      save_file s i fs choice = save_as_file s i fs choice) ∧
    (∀ p, (s.tabs.getD i.toNat default).file_path = some p →
      fs.writeOk p = true →
      (save_file s i fs choice).ok = true ∧
      (save_file s i fs choice).written = some (p, (s.tabs.getD i.toNat default).content) ∧
      ((save_file s i fs choice).session.tabs.getD i.toNat default).modified = false ∧
      dictGet (save_file s i fs choice).session.last_saved_count i.toNat =
        (s.tabs.getD i.toNat default).content.length ∧
      (save_file s i fs choice).errorShown = false) ∧
    (∀ p, (s.tabs.getD i.toNat default).file_path = some p →
      fs.writeOk p = false →
      save_file s i fs choice = ⟨s, false, none, true⟩) := by
  have hlt := inBounds_toNat h
  refine ⟨?_, ?_, ?_⟩
  · intro hfp
    simp only [List.getD_eq_getElem?_getD] at hfp
    simp [save_file, h, hfp]
  · intro p hfp hw
    simp only [List.getD_eq_getElem?_getD] at hfp
    have hstep : save_file s i fs choice =
        ⟨{ s with
            tabs := s.tabs.set i.toNat
              (update_tab_title { s.tabs.getD i.toNat default with modified := false }),
            last_saved_count := dictSet s.last_saved_count i.toNat
              (s.tabs.getD i.toNat default).content.length },
          true, some (p, (s.tabs.getD i.toNat default).content), false⟩ := by
      simp [save_file, h, hfp, hw]
    refine ⟨?_, ?_, ?_, ?_, ?_⟩
    · rw [hstep]
    · rw [hstep]
    · rw [hstep]
      have := getD_set_self s.tabs i.toNat
        (update_tab_title { s.tabs.getD i.toNat default with modified := false })
        default hlt
      rw [this]
      simp [update_tab_title]
    · rw [hstep]
      exact dictGet_dictSet _ _ _
    · rw [hstep]
  · intro p hfp hw
    simp only [List.getD_eq_getElem?_getD] at hfp
    simp [save_file, h, hfp, hw]

/-- C4 witness: saving the dirty file-backed tab of sSaved with a working
filesystem writes "hi" to "a.txt", clears the flag and updates the saved
length. -/
theorem save_file_spec_witness :
    (save_file sSaved 0 fsAll none).ok = true ∧
    (save_file sSaved 0 fsAll none).written =
      some (("a.txt"), (sSaved.tabs.getD 0 default).content) ∧
    ((save_file sSaved 0 fsAll none).session.tabs.getD 0 default).modified = false ∧
    dictGet (save_file sSaved 0 fsAll none).session.last_saved_count 0 =
      (sSaved.tabs.getD 0 default).content.length ∧
    (save_file sSaved 0 fsAll none).errorShown = false :=
  (save_file_spec sSaved 0 fsAll none (by decide)).2.1 ("a.txt") (by decide) (by decide)

lemma on_text_modified_of_modified (s : Session) (i : Int)
    (hm : (s.tabs.getD i.toNat default).modified = true) :
    on_text_modified s i = s := by
  by_cases hb : inBounds i s.tabs.length = true
  · simp only [List.getD_eq_getElem?_getD] at hm
    by_cases hc : (s.tabs[i.toNat]?.getD default).content.length =
        dictGet s.last_saved_count i.toNat
    · simp [on_text_modified, hb, hm, hc]
    · simp [on_text_modified, hb, hm, hc]
  · simp [on_text_modified, hb]

lemma on_text_modified_of_eq (s : Session) (i : Int)
    (hc : (s.tabs.getD i.toNat default).content.length =
      dictGet s.last_saved_count i.toNat) :
    on_text_modified s i = s := by
  by_cases hb : inBounds i s.tabs.length = true
  · simp only [List.getD_eq_getElem?_getD] at hc
    simp [on_text_modified, hb, hc]
  · simp [on_text_modified, hb]

lemma on_text_modified_step (s : Session) (i : Int)
    (hb : inBounds i s.tabs.length = true)
    (hm : (s.tabs.getD i.toNat default).modified = false)
    (hc : ¬ (s.tabs.getD i.toNat default).content.length =
      dictGet s.last_saved_count i.toNat) :
    on_text_modified s i =
      { s with tabs :=
          s.tabs.set i.toNat (update_tab_title { s.tabs.getD i.toNat default with modified := true }) } := by
  simp only [List.getD_eq_getElem?_getD] at hm hc
  simp [on_text_modified, hb, hm, hc]

/-- C6: for an in-bounds index, on_text_modified marks the tab modified
exactly when it was already modified or the content length differs from
the recorded last-saved length; a length-preserving edit changes nothing;
and the operation is idempotent, so repeated calls after the first cause
no further state (or displayed title) mutation. -/
theorem on_text_modified_spec (s : Session) (i : Int)
    (h : inBounds i s.tabs.length = true) :
    (((on_text_modified s i).tabs.getD i.toNat default).modified = true ↔
      ((s.tabs.getD i.toNat default).modified = true ∨
       (s.tabs.getD i.toNat default).content.length ≠
         dictGet s.last_saved_count i.toNat)) ∧
    ((s.tabs.getD i.toNat default).content.length =
        dictGet s.last_saved_count i.toNat →
      on_text_modified s i = s) ∧
    ((s.tabs.getD i.toNat default).modified = true → on_text_modified s i = s) ∧
    on_text_modified (on_text_modified s i) i = on_text_modified s i := by
  have hlt := inBounds_toNat h
  by_cases hm : (s.tabs.getD i.toNat default).modified = true
  · have hid := on_text_modified_of_modified s i hm
    refine ⟨?_, fun _ => hid, fun _ => hid, ?_⟩
    · rw [hid]
      exact iff_of_true hm (Or.inl hm)
    · rw [hid, hid]
  · have hmf : (s.tabs.getD i.toNat default).modified = false := by
      cases hb2 : (s.tabs.getD i.toNat default).modified
      · rfl
      · exact absurd hb2 hm
    by_cases hc : (s.tabs.getD i.toNat default).content.length =
        dictGet s.last_saved_count i.toNat
    · have hid := on_text_modified_of_eq s i hc
      refine ⟨?_, fun _ => hid, fun hmm => absurd hmm hm, ?_⟩
      · rw [hid]
        constructor
        · intro hx
          exact Or.inl hx
        · rintro (hx | hx)
          · exact hx
          · exact absurd hc hx
      · rw [hid, hid]
    · have hstep := on_text_modified_step s i h hmf hc
      have hget : (on_text_modified s i).tabs.getD i.toNat default =
          update_tab_title { s.tabs.getD i.toNat default with modified := true } := by
        rw [hstep]
        exact getD_set_self _ _ _ _ hlt
      refine ⟨?_, fun hcc => absurd hcc hc, fun hmm => absurd hmm hm, ?_⟩
      · rw [hget]
        exact iff_of_true rfl (Or.inr hc)
      · apply on_text_modified_of_modified
        rw [hget]
        rfl

/-- C6 witness: the first modification event on the fresh "banana" tab
(content length 6, recorded length 0) marks it modified. -/
theorem on_text_modified_spec_witness :
    ((on_text_modified sBanana 0).tabs.getD 0 default).modified = true :=
  ((on_text_modified_spec sBanana 0 (by decide)).1).mpr (Or.inr (by decide))

/-- C3 counterexample: in sDotSlash a tab is open whose stored path
"./a.txt" resolves to the same absolute path as "a.txt", yet opening
"a.txt" appends a second tab because the code compares raw path strings,
refuting the claim that comparison uses resolved absolute paths. -/
theorem open_resolved_path_cex :
    resolveSame ("./a.txt") = resolveSame ("a.txt") ∧
    (sDotSlash.tabs.getD 0 default).file_path = some ("./a.txt") ∧
    (open_specific_file sDotSlash ("a.txt") fsAll).session.tabs.length = 2 ∧
    ¬ (open_specific_file sDotSlash ("a.txt") fsAll).session.tabs.length =
        sDotSlash.tabs.length := by decide

/-- C3 (amended): for an existing, readable path, open_specific_file
re-selects the first tab whose stored path string equals the argument
exactly (creating no new tab); when no tab stores that exact string it
appends a new tab holding the file content and path and records the path
in recent files — two spellings of the same file therefore open twice. -/
theorem open_specific_file_spec (s : Session) (p : String) (fs : FS)
    (content : List Char) (hex : fs.pathExists p = true)
    (hread : fs.readFile p = some content) :
    (∀ j, s.tabs.findIdx? (fun tab => tab.file_path == some p) = some j →
      (open_specific_file s p fs).session = select_tab s (j : Int) ∧
      (open_specific_file s p fs).session.tabs = s.tabs ∧
      (open_specific_file s p fs).session.current_tab = j) ∧
    (s.tabs.findIdx? (fun tab => tab.file_path == some p) = none →
      (open_specific_file s p fs).session.tabs.length = s.tabs.length + 1 ∧
      ((open_specific_file s p fs).session.tabs.getD s.tabs.length default).content
        = content ∧
      ((open_specific_file s p fs).session.tabs.getD s.tabs.length default).file_path
        = some p ∧
      p ∈ (open_specific_file s p fs).session.recent_files) := by
  have hex2 : ¬ fs.pathExists p = false := by
    rw [hex]
    simp
  constructor
  · intro j hj
    have hjlt : j < s.tabs.length := by
      have := findIdx?_some_bounds (fun tab => tab.file_path == some p) s.tabs 0 j hj
      omega
    have heq : (open_specific_file s p fs).session = select_tab s (j : Int) := by
      simp [open_specific_file, hex2, hread, hj]
    refine ⟨heq, ?_, ?_⟩
    · rw [heq]
      exact select_tab_tabs s (j : Int)
    · rw [heq]
      simp [select_tab, inBounds_natCast hjlt]
  · intro hj
    have hstep : (open_specific_file s p fs).session =
        { tabs :=
            (s.tabs ++ [(⟨basename p, some p, false, content, basename p⟩ : Tab)]).set s.tabs.length
              (update_tab_title ⟨basename p, some p, false, content, basename p⟩),
          current_tab := s.tabs.length,
          last_saved_count :=
            dictSet (dictSet s.last_saved_count s.tabs.length 0) s.tabs.length content.length,
          recent_files := update_recent s.recent_files p } := by
      simp [open_specific_file, hex2, hread, hj, new_tab, dictSet]
    have hlen : s.tabs.length < (s.tabs ++ [(⟨basename p, some p, false, content, basename p⟩ : Tab)]).length := by
      simp
    refine ⟨?_, ?_, ?_, ?_⟩
    · rw [hstep]
      simp
    · rw [hstep]
      have := getD_set_self (s.tabs ++ [(⟨basename p, some p, false, content, basename p⟩ : Tab)])
        s.tabs.length (update_tab_title ⟨basename p, some p, false, content, basename p⟩)
        default hlen
      simp only [this]
      rfl
    · rw [hstep]
      have := getD_set_self (s.tabs ++ [(⟨basename p, some p, false, content, basename p⟩ : Tab)])
        s.tabs.length (update_tab_title ⟨basename p, some p, false, content, basename p⟩)
        default hlen
      simp only [this]
      rfl
    · rw [hstep]
      exact mem_update_recent s.recent_files p

/-- C3 witness: opening "f01" in the empty session creates one tab holding
the file content with the path recorded in recent files. -/
theorem open_specific_file_spec_witness :
    (open_specific_file s0 ("f01") fs12).session.tabs.length = s0.tabs.length + 1 ∧
    ((open_specific_file s0 ("f01") fs12).session.tabs.getD s0.tabs.length default).content
      = [] ∧
    ((open_specific_file s0 ("f01") fs12).session.tabs.getD s0.tabs.length default).file_path
      = some ("f01") ∧
    ("f01") ∈ (open_specific_file s0 ("f01") fs12).session.recent_files :=
  (open_specific_file_spec s0 ("f01") fs12 [] (by decide) (by decide)).2 (by decide)

/-- C7: for a nonempty search text, find_next returns only ranges
[i, i + len) at true case-insensitive match positions; it returns none
only when no match position exists at all; it prefers the first match at
or after the start position, and when none exists there it wraps to the
first match before the start position; concretely, in "abcXabc" the
search "abc" started at position 7 (just past the second match) wraps to
the range (0, 3) of the first match. -/
theorem find_next_spec (content pat : List Char) (start : Nat) (hp : pat ≠ []) :
    (∀ i j, find_next content pat start = some (i, j) →
      matchAtCI content pat i = true ∧ j = i + pat.length) ∧
    (find_next content pat start = none →
      ∀ i, matchAtCI content pat i = false) ∧
    (∀ i, start ≤ i → matchAtCI content pat i = true →
      (∀ k, start ≤ k → k < i → matchAtCI content pat k = false) →
      find_next content pat start = some (i, i + pat.length)) ∧
    ((∀ k, start ≤ k → matchAtCI content pat k = false) →
      ∀ i, i < start → matchAtCI content pat i = true →
      (∀ k, k < i → matchAtCI content pat k = false) →
      find_next content pat start = some (i, i + pat.length)) ∧
    find_next (("abcXabc").data) (("abc").data) 7 = some (0, 3) := by
  have hne : pat.isEmpty = false := by
    cases pat
    · exact absurd rfl hp
    · rfl
  refine ⟨?_, ?_, ?_, ?_, by decide⟩
  · intro i j hfind
    simp only [find_next, hne, Bool.false_eq_true, if_false] at hfind
    rcases h1 : tkSearch content pat start content.length with _ | i1
    · rw [h1] at hfind
      rcases h2 : tkSearch content pat 0 start with _ | i2
      · rw [h2] at hfind
        cases hfind
      · rw [h2] at hfind
        have hm := ((scanMatch_some_iff content pat start 0 i2).mp h2).2.2.1
        cases hfind
        exact ⟨hm, rfl⟩
    · rw [h1] at hfind
      have hm := ((scanMatch_some_iff content pat (content.length - start) start i1).mp h1).2.2.1
      cases hfind
      exact ⟨hm, rfl⟩
  · intro hfind i
    simp only [find_next, hne, Bool.false_eq_true, if_false] at hfind
    rcases h1 : tkSearch content pat start content.length with _ | i1
    · rcases h2 : tkSearch content pat 0 start with _ | i2
      · have hall1 := (scanMatch_none_iff content pat (content.length - start) start).mp h1
        have hall2 := (scanMatch_none_iff content pat start 0).mp h2
        by_cases hlt : i < start
        · exact hall2 i (by omega) (by omega)
        · by_cases hlen : i < content.length
          · exact hall1 i (by omega) (by omega)
          · exact matchAtCI_eq_false_of_le content pat hp i (by omega)
      · rw [h1, h2] at hfind
        cases hfind
    · rw [h1] at hfind
      cases hfind
  · intro i hsi hm hmin
    have hic : i < content.length := lt_length_of_matchAtCI content pat hp i hm
    have h1 : tkSearch content pat start content.length = some i := by
      rw [tkSearch, scanMatch_some_iff]
      exact ⟨hsi, by omega, hm, hmin⟩
    simp [find_next, hne, h1]
  · intro hall i hi hm hmin
    have h1 : tkSearch content pat start content.length = none := by
      rw [tkSearch, scanMatch_none_iff]
      intro k hk1 _
      exact hall k hk1
    have h2 : tkSearch content pat 0 start = some i := by
      rw [tkSearch, scanMatch_some_iff]
      exact ⟨Nat.zero_le i, by omega, hm, fun k _ hk => hmin k hk⟩
    simp [find_next, hne, h1, h2]

/-- C7 witness: the concrete circular search on "abcXabc". -/
theorem find_next_spec_witness :
    find_next (("abcXabc").data) (("abc").data) 7 = some (0, 3) :=
  (find_next_spec (("abcXabc").data) (("abc").data) 7 (by decide)).2.2.2.2

lemma open_specific_file_recent (s : Session) (p : String) (fs : FS) :
    (open_specific_file s p fs).session.recent_files = s.recent_files ∨
    (open_specific_file s p fs).session.recent_files = update_recent s.recent_files p := by
  by_cases hex : fs.pathExists p = false
  · left
    simp [open_specific_file, hex]
  · rcases hr : fs.readFile p with _ | content
    · left
      simp [open_specific_file, hex, hr]
    · rcases hj : s.tabs.findIdx? (fun tab => tab.file_path == some p) with _ | j
      · right
        simp [open_specific_file, hex, hr, hj, new_tab]
      · left
        simp [open_specific_file, hex, hr, hj, select_tab_recent]

/-- C9: opening a file preserves the bound of at most 10 recent entries
and their freedom from duplicates; and concretely, opening the 12 distinct
existing files of fs12 in the empty session leaves exactly 10 entries with
the most recent path "f12" present and the two oldest paths "f01" and
"f02" evicted. -/
theorem recent_files_bound (s : Session) (p : String) (fs : FS)
    (hlen : s.recent_files.length ≤ 10) (hnd : s.recent_files.Nodup) :
    (open_specific_file s p fs).session.recent_files.length ≤ 10 ∧
    (open_specific_file s p fs).session.recent_files.Nodup ∧
    s12.recent_files.length = 10 ∧
    s12.recent_files.Nodup ∧
    ("f12") ∈ s12.recent_files ∧
    ¬ ("f01") ∈ s12.recent_files ∧
    ¬ ("f02") ∈ s12.recent_files ∧
    s12.recent_files =
      [("f03"), ("f04"), ("f05"), ("f06"), ("f07"), ("f08"), ("f09"), ("f10"),
       ("f11"), ("f12")] := by
  have hgen : (open_specific_file s p fs).session.recent_files.length ≤ 10 ∧
      (open_specific_file s p fs).session.recent_files.Nodup := by
    rcases open_specific_file_recent s p fs with hcase | hcase
    · rw [hcase]
      exact ⟨hlen, hnd⟩
    · rw [hcase]
      exact ⟨update_recent_length s.recent_files p hlen, update_recent_nodup s.recent_files p hnd⟩
  exact ⟨hgen.1, hgen.2, by decide, by decide, by decide, by decide, by decide, by decide⟩

/-- C9 witness: one open from the empty session keeps the bound and
dedup invariants. -/
theorem recent_files_bound_witness :
    (open_specific_file s0 ("f05") fs12).session.recent_files.length ≤ 10 ∧
    (open_specific_file s0 ("f05") fs12).session.recent_files.Nodup :=
  ⟨(recent_files_bound s0 ("f05") fs12 (by decide) (by decide)).1,
   (recent_files_bound s0 ("f05") fs12 (by decide) (by decide)).2.1⟩

end Notepad
